import Mathlib

/-!
Verification development for the color-eyre section model, ordered
aggregation API and report renderer.

Shallow embedding conventions:
* boxed `dyn Display` payloads are modelled as pre-rendered `String`s;
* `Result<T, E>` is `Except E T`; `map_err` becomes pattern matching;
* Rust closures (`FnOnce() -> C`) are `Unit → C` thunks;
* a `panic!`/`unreachable!` is modelled by an `Option` result (`none`);
* the in-memory formatter sink (`fmt::Write`) is a `String` accumulator.
-/

set_option maxRecDepth 4000

namespace ColorEyre

/-- Embeds `Order` from `src/src/help.rs` / `src/src/section/mod.rs`:
the placement tag of a custom section. -/
inductive Order where
  | AfterErrMsgs
  | AfterBackTrace
  | SkipEntirely
deriving DecidableEq, Repr

/-- Embeds `HelpInfo` from `src/src/help.rs`: the three pre-configured
help entry kinds, each wrapping a displayable payload (modelled as the
payload's rendered text). -/
inductive HelpInfo where
  | Note (payload : String)
  | Warning (payload : String)
  | Suggestion (payload : String)
deriving DecidableEq, Repr

/-- Embeds `ansi_term` 4-bit foreground painting as used by
`Display for HelpInfo`: colored text is the SGR escape, the text, and
the reset escape. -/
def paint (code : String) (s : String) : String :=
  "\x1b[" ++ code ++ "m" ++ s ++ "\x1b[0m"

/-- Embeds `impl Display for HelpInfo` (src/src/help.rs lines 454-462):
`Note`/`Suggestion` labels painted cyan (SGR 36), `Warning` yellow
(SGR 33), followed by `": "` and the payload. -/
def HelpInfo.display : HelpInfo → String
  | .Note c => paint "36" "Note" ++ ": " ++ c
  | .Warning c => paint "33" "Warning" ++ ": " ++ c
  | .Suggestion c => paint "36" "Suggestion" ++ ": " ++ c

/-- Embeds `Section` from `src/src/help.rs` (lines 429-433): a boxed
displayable header, an optional boxed displayable body, and an `Order`
placement tag. -/
structure Section where
  header : String
  body : Option String
  order : Order
deriving DecidableEq, Repr

/-- Embeds `impl<T> From<T> for Section` (src/src/help.rs lines
464-477): a header-only section with order `AfterErrMsgs`. -/
def Section.ofHeader (header : String) : Section :=
  { header := header, body := none, order := .AfterErrMsgs }

/-- Embeds the crate-private `Section::order` builder
(src/src/help.rs lines 435-440). -/
def Section.withOrder (s : Section) (o : Order) : Section :=
  { s with order := o }

/-- Embeds `Section::from(HelpInfo::...)`: the section's header is the
help entry's rendered `Display` text (src/src/help.rs lines 233-234). -/
def Section.ofHelpInfo (hi : HelpInfo) : Section :=
  Section.ofHeader hi.display

/-- The section pushed by `note`/`warning`/`suggestion` and their lazy
variants: `Section::from(HelpInfo::..).order(Order::AfterBackTrace)`
(src/src/help.rs lines 227-307). -/
def mkHelpSection (hi : HelpInfo) : Section :=
  (Section.ofHelpInfo hi).withOrder .AfterBackTrace

/-- Embeds `SectionExt::body` (src/src/section/mod.rs lines 148-155),
specialised at `T = Section` where Rust's reflexive `From` impl makes
`Section::from(self)` the identity. -/
def SectionExt.body (s : Section) (body : String) : Section :=
  { s with body := some body }

/-- Embeds `SectionExt::skip_if` (src/src/section/mod.rs lines
157-168), specialised at `T = Section` (reflexive `From`): the
predicate is evaluated immediately; if true the order becomes
`SkipEntirely`, otherwise the order is left unchanged. -/
def SectionExt.skip_if (s : Section) (condition : Unit → Bool) : Section :=
  { s with order := if condition () then Order.SkipEntirely else s.order }

/-- Tri-state status of a captured span trace
(`tracing_error::SpanTraceStatus`, consumed in src/src/writers.rs). -/
inductive SpanTraceStatus where
  | Captured
  | Unsupported
  | Empty
deriving DecidableEq, Repr

/-- A captured span trace: its status plus the colorized text the
`color_spantrace::colorize` collaborator would produce for it. -/
structure SpanTraceModel where
  status : SpanTraceStatus
  colorized : String
deriving DecidableEq, Repr

/-- The per-failure Context Store (`Context`/`Handler`): optional
captured backtrace (modelled by the formatted text the upstream
collaborator produces for it), optional captured span trace, and the
ordered sequence of sections (help entries included, as pushed by
src/src/help.rs). -/
structure Handler where
  backtrace : Option String
  spanTrace : Option SpanTraceModel
  sections : List Section
deriving DecidableEq, Repr

/-- A report: the primary failure's ordered cause-display chain plus
its exclusively-owned Context Store. -/
structure Report where
  msgs : List String
  handler : Handler
deriving DecidableEq, Repr

/-- Embeds `e.context_mut().sections.push(s)`: append one section to the
report's Context Store. -/
def Report.pushSection (r : Report) (s : Section) : Report :=
  { r with handler := { r.handler with sections := r.handler.sections ++ [s] } }

namespace Help

/-- Embeds `Help::note` (src/src/help.rs lines 227-238): on `Err`,
convert the error into a `Report` and push the note's help section
with order `AfterBackTrace`; `Ok` passes through via `map_err`. -/
def note {T E : Type} (into : E → Report) (r : Except E T) (context : String) :
    Except Report T :=
  match r with
  | .ok v => .ok v
  | .error e => .error ((into e).pushSection (mkHelpSection (.Note context)))

/-- Embeds `Help::with_note` (src/src/help.rs lines 240-252): the lazy
variant, whose thunk is only forced on the `Err` branch. -/
def with_note {T E : Type} (into : E → Report) (r : Except E T)
    (context : Unit → String) : Except Report T :=
  match r with
  | .ok v => .ok v
  | .error e => .error ((into e).pushSection (mkHelpSection (.Note (context ()))))

/-- Embeds `Help::warning` (src/src/help.rs lines 254-265). -/
def warning {T E : Type} (into : E → Report) (r : Except E T) (context : String) :
    Except Report T :=
  match r with
  | .ok v => .ok v
  | .error e => .error ((into e).pushSection (mkHelpSection (.Warning context)))

/-- Embeds `Help::with_warning` (src/src/help.rs lines 267-279). -/
def with_warning {T E : Type} (into : E → Report) (r : Except E T)
    (context : Unit → String) : Except Report T :=
  match r with
  | .ok v => .ok v
  | .error e => .error ((into e).pushSection (mkHelpSection (.Warning (context ()))))

/-- Embeds `Help::suggestion` (src/src/help.rs lines 281-292). -/
def suggestion {T E : Type} (into : E → Report) (r : Except E T) (context : String) :
    Except Report T :=
  match r with
  | .ok v => .ok v
  | .error e => .error ((into e).pushSection (mkHelpSection (.Suggestion context)))

/-- Embeds `Help::with_suggestion` (src/src/help.rs lines 294-307). -/
def with_suggestion {T E : Type} (into : E → Report) (r : Except E T)
    (context : Unit → String) : Except Report T :=
  match r with
  | .ok v => .ok v
  | .error e => .error ((into e).pushSection (mkHelpSection (.Suggestion (context ()))))

/-- Embeds `Help::section` (src/src/help.rs lines 326-340): on `Err`,
push the section unless its order is `SkipEntirely`. -/
def sectionOp {T E : Type} (into : E → Report) (r : Except E T) (s : Section) :
    Except Report T :=
  match r with
  | .ok v => .ok v
  | .error e =>
    .error (if s.order = Order.SkipEntirely then into e else (into e).pushSection s)

/-- Embeds `Help::with_section` (src/src/help.rs lines 309-324): the
lazy variant of `section`, with the same `SkipEntirely` guard. -/
def with_section {T E : Type} (into : E → Report) (r : Except E T)
    (s : Unit → Section) : Except Report T :=
  match r with
  | .ok v => .ok v
  | .error e =>
    let sec := s ()
    .error (if sec.order = Order.SkipEntirely then into e else (into e).pushSection sec)

end Help

/-- Modelled from the spec: the `header` combinator of the section
extension trait referenced by `src/src/section/context_from.rs`
(its defining module is not under src/). Per §4.3, `body.header(h)`
builds the section with the given header and the receiver as body;
placement is the default `AfterPrimaryMessages` (`AfterErrMsgs`). -/
def SectionExt.header (selfBody : String) (header : String) : Section :=
  { header := header, body := some selfBody, order := .AfterErrMsgs }

/-- Modelled from the spec: the `Report`-level `section` append used by
`src/src/section/context_from.rs` (its defining module is not under
src/). Per §4.2 it appends the custom section to the report's Context
Store; per §3's suppression invariant (and the guard in
`Help::section`, src/src/help.rs lines 334-336) a `SkipEntirely`
section is never stored. -/
def Report.sectionOp (r : Report) (s : Section) : Report :=
  if s.order = Order.SkipEntirely then r else r.pushSection s

/-- A `std::process::ExitStatus` as observed through the three
accessors the source uses: `success()`, `code()` and (on unix,
via `ExitStatusExt`) `signal()`. -/
structure ExitStatusModel where
  success : Bool
  code : Option Int
  signal : Option Int
deriving DecidableEq, Repr

/-- A `std::process::Command` as observed through the one accessor the
source uses: its `Debug` representation. -/
structure CommandModel where
  debugRepr : String
deriving DecidableEq, Repr

/-- A `std::process::Output`: exit status plus raw captured byte
streams. -/
structure OutputModel where
  status : ExitStatusModel
  stdout : List Nat
  stderr : List Nat
deriving DecidableEq, Repr

/-- Is `b` a UTF-8 continuation byte (`0x80..=0xBF`)? -/
def isCont (b : Nat) : Bool := 0x80 ≤ b && b ≤ 0xBF

/-- Valid second byte for a three-byte sequence starting with `b1`
(E0: A0..BF, E1..EC: 80..BF, ED: 80..9F, EE..EF: 80..BF), as in the
std UTF-8 validator backing `String::from_utf8_lossy`. -/
def cont2ok3 (b1 b2 : Nat) : Bool :=
  if b1 = 0xE0 then 0xA0 ≤ b2 && b2 ≤ 0xBF
  else if b1 = 0xED then 0x80 ≤ b2 && b2 ≤ 0x9F
  else isCont b2

/-- Valid second byte for a four-byte sequence starting with `b1`
(F0: 90..BF, F1..F3: 80..BF, F4: 80..8F). -/
def cont2ok4 (b1 b2 : Nat) : Bool :=
  if b1 = 0xF0 then 0x90 ≤ b2 && b2 ≤ 0xBF
  else if b1 = 0xF4 then 0x80 ≤ b2 && b2 ≤ 0x8F
  else isCont b2

/-- The U+FFFD replacement character. -/
def replChar : Char := Char.ofNat 0xFFFD

/-- Embeds `String::from_utf8_lossy` at the byte level: decode UTF-8,
replacing each maximal subpart of an ill-formed sequence with one
U+FFFD, never erroring (total by construction). -/
def utf8Lossy : List Nat → List Char
  | [] => []
  | b :: rest =>
    if b < 0x80 then Char.ofNat b :: utf8Lossy rest
    else if b < 0xC2 then replChar :: utf8Lossy rest
    else if b ≤ 0xDF then
      match rest with
      | [] => [replChar]
      | b2 :: rest2 =>
        if isCont b2 then
          Char.ofNat (((b - 0xC0) * 64) + (b2 - 0x80)) :: utf8Lossy rest2
        else replChar :: utf8Lossy (b2 :: rest2)
    else if b ≤ 0xEF then
      match rest with
      | [] => [replChar]
      | b2 :: rest2 =>
        if cont2ok3 b b2 then
          match rest2 with
          | [] => [replChar]
          | b3 :: rest3 =>
            if isCont b3 then
              Char.ofNat (((b - 0xE0) * 4096) + ((b2 - 0x80) * 64) + (b3 - 0x80)) ::
                utf8Lossy rest3
            else replChar :: utf8Lossy (b3 :: rest3)
        else replChar :: utf8Lossy (b2 :: rest2)
    else if b ≤ 0xF4 then
      match rest with
      | [] => [replChar]
      | b2 :: rest2 =>
        if cont2ok4 b b2 then
          match rest2 with
          | [] => [replChar]
          | b3 :: rest3 =>
            if isCont b3 then
              match rest3 with
              | [] => [replChar]
              | b4 :: rest4 =>
                if isCont b4 then
                  Char.ofNat (((b - 0xF0) * 262144) + ((b2 - 0x80) * 4096) +
                    ((b3 - 0x80) * 64) + (b4 - 0x80)) :: utf8Lossy rest4
                else replChar :: utf8Lossy (b4 :: rest4)
            else replChar :: utf8Lossy (b3 :: rest3)
        else replChar :: utf8Lossy (b2 :: rest2)
    else replChar :: utf8Lossy rest

/-- Embeds `String::from_utf8_lossy`, producing a `String`. -/
def fromUtf8Lossy (bytes : List Nat) : String :=
  String.mk (utf8Lossy bytes)

/-- Embeds `ContextFrom<&ExitStatus> for Report::context_from`
(src/src/section/context_from.rs lines 50-79, unix configuration):
one "Exit Status:" section whose body depends on `success()` and, with
code taking priority, on `code()` then `signal()`; the
`unreachable!` hit when neither a code nor a signal is available is a
panic, modelled as `none`. -/
def Report.contextFromStatus (r : Report) (st : ExitStatusModel) : Option Report :=
  let how := if st.success then "successfully" else "unsuccessfully"
  match st.code with
  | some c =>
    some (r.sectionOp (SectionExt.header
      ("command exited " ++ how ++ " with status code " ++ toString c) "Exit Status:"))
  | none =>
    match st.signal with
    | some sg =>
      some (r.sectionOp (SectionExt.header
        ("command terminated " ++ how ++ " by signal " ++ toString sg) "Exit Status:"))
    | none => none

/-- Embeds `ContextFrom<&Output> for Report::context_from`
(src/src/section/context_from.rs lines 38-48): delegate to the
exit-status extractor, then append the "Stdout:" and "Stderr:"
sections with lossily decoded bodies. -/
def Report.contextFromOutput (r : Report) (out : OutputModel) : Option Report :=
  (r.contextFromStatus out.status).map (fun r1 =>
    (r1.sectionOp (SectionExt.header (fromUtf8Lossy out.stdout) "Stdout:")).sectionOp
      (SectionExt.header (fromUtf8Lossy out.stderr) "Stderr:"))

/-- Embeds `ContextFrom<&Command> for Report::context_from`
(src/src/section/context_from.rs lines 29-36): one "Command:" section
whose body is the command's `Debug` form. -/
def Report.contextFromCommand (r : Report) (cmd : CommandModel) : Report :=
  r.sectionOp (SectionExt.header cmd.debugRepr "Command:")

namespace ContextFrom

/-- Embeds `ContextFrom<C> for Result` (src/src/section/context_from.rs
lines 16-27) at `C = &ExitStatus`: `map_err` into a report, then
extract context on the `Err` branch only. -/
def resultStatus {T E : Type} (into : E → Report) (r : Except E T)
    (st : ExitStatusModel) : Option (Except Report T) :=
  match r with
  | .ok v => some (.ok v)
  | .error e => ((into e).contextFromStatus st).map .error

/-- Embeds `ContextFrom<C> for Result` at `C = &Output`. -/
def resultOutput {T E : Type} (into : E → Report) (r : Except E T)
    (out : OutputModel) : Option (Except Report T) :=
  match r with
  | .ok v => some (.ok v)
  | .error e => ((into e).contextFromOutput out).map .error

/-- Embeds `ContextFrom<C> for Result` at `C = &Command`. -/
def resultCommand {T E : Type} (into : E → Report) (r : Except E T)
    (cmd : CommandModel) : Except Report T :=
  match r with
  | .ok v => .ok v
  | .error e => .error ((into e).contextFromCommand cmd)

end ContextFrom

/-- Embeds `Verbosity` (consumed by src/src/writers.rs line 161; its
defining `config` module is not under src/, so the three-level ordinal
is modelled from the spec's `Minimal < Medium/Short < Full`). -/
inductive Verbosity where
  | Minimal
  | Medium
  | Full
deriving DecidableEq, Repr

/-- Rank of a verbosity level, inducing the spec's ordinal order. -/
def Verbosity.toNat : Verbosity → Nat
  | .Minimal => 0
  | .Medium => 1
  | .Full => 2

instance : LE Verbosity := ⟨fun a b => a.toNat ≤ b.toNat⟩

instance : LT Verbosity := ⟨fun a b => a.toNat < b.toNat⟩

instance (a b : Verbosity) : Decidable (a ≤ b) :=
  inferInstanceAs (Decidable (a.toNat ≤ b.toNat))

instance (a b : Verbosity) : Decidable (a < b) :=
  inferInstanceAs (Decidable (a.toNat < b.toNat))

/-- Embeds `HeaderWriter` (src/src/writers.rs lines 7-15): a gated
writer over an underlying sink (the sink's accumulated text), a header
to emit lazily, and the started flag of the current scope. -/
structure HeaderWriter where
  inner : String
  header : String
  started : Bool
deriving DecidableEq, Repr

/-- Embeds `HeaderWriter::ready` (src/src/writers.rs lines 34-38):
reset the started flag, beginning a fresh gated scope over the same
sink. -/
def HeaderWriter.ready (w : HeaderWriter) : HeaderWriter :=
  { w with started := false }

/-- Embeds `HeaderWriter::in_progress` (src/src/writers.rs lines
40-44). -/
def HeaderWriter.in_progress (w : HeaderWriter) : HeaderWriter :=
  { w with started := true }

/-- Embeds `ReadyHeaderWriter::write_str` (src/src/writers.rs lines
52-59): if the scope has not started and the chunk is non-empty, first
write the header and mark the scope started; then write the chunk. -/
def HeaderWriter.write_str (w : HeaderWriter) (s : String) : HeaderWriter :=
  if !w.started && !s.isEmpty then
    { inner := w.inner ++ w.header ++ s, header := w.header, started := true }
  else
    { w with inner := w.inner ++ s }

/-- A sequence of write chunks issued to the same gated writer. -/
def HeaderWriter.writeChunks (w : HeaderWriter) (cs : List String) : HeaderWriter :=
  cs.foldl HeaderWriter.write_str w

/-- Concatenation of a chunk list (what an ungated sink receives). -/
def strJoin : List String → String
  | [] => ""
  | s :: t => s ++ strJoin t

/-- Embeds the write chunks of `Display for BacktraceOmited`
(src/src/writers.rs lines 136-155). -/
def backtraceOmitedChunks (omitted : Bool) : List String :=
  if omitted then
    ["Backtrace omitted.\n",
     "Run with RUST_BACKTRACE=1 environment variable to display it."]
  else
    ["Run with COLORBT_SHOW_HIDDEN=1 environment variable to disable frame filtering."]

/-- The source-snippet hint text (src/src/writers.rs lines 163-165). -/
def sourceSnippetsHint : String :=
  "Run with RUST_BACKTRACE=full to include source snippets."

/-- Embeds the write chunks of `Display for SourceSnippets`
(src/src/writers.rs lines 159-170): the hint is written iff the
verbosity is at most `Medium`. -/
def sourceSnippetsChunks (v : Verbosity) : List String :=
  if v ≤ Verbosity.Medium then [sourceSnippetsHint] else []

/-- Embeds the write chunks of `Display for SpanTraceOmited`
(src/src/writers.rs lines 118-132): a fixed warning iff a span trace
was captured with `Unsupported` status. -/
def spanTraceOmitedChunks : Option SpanTraceStatus → List String
  | some .Unsupported =>
    ["Warning: SpanTrace capture is Unsupported.\n",
     "Ensure that you\x27ve setup an error layer and the versions match"]
  | _ => []

/-- Embeds the body of `Display for EnvSection` (src/src/writers.rs
lines 89-112) after the verbosity has been selected: write the
backtrace-omitted text directly, then write the source-snippet hint
and the span-trace warning through a `HeaderWriter` with header
`"\n"`, calling `ready()` before each. -/
def envSectionCore (btCaptured : Bool) (spanStatus : Option SpanTraceStatus)
    (v : Verbosity) : String :=
  let w0 : HeaderWriter :=
    { inner := strJoin (backtraceOmitedChunks (!btCaptured)),
      header := "\n", started := false }
  let w1 := w0.ready.writeChunks (sourceSnippetsChunks v)
  let w2 := w1.ready.writeChunks (spanTraceOmitedChunks spanStatus)
  w2.inner

/-- Embeds `Display for EnvSection` (src/src/writers.rs lines 89-112):
select the verbosity from the panicking state (lines 91-95), then
render the environment hints. -/
def EnvSection.fmt (btCaptured : Bool) (span : Option SpanTraceModel)
    (panicking : Bool) (panicV libV : Verbosity) : String :=
  envSectionCore btCaptured (span.map SpanTraceModel.status)
    (if panicking then panicV else libV)

/-- Embeds the `indenter` uniform indentation used by
`fmt::Debug for Section` (src/src/section/mod.rs lines 190-195):
every non-empty line of the text is prefixed with the indentation. -/
def indentUniform (ind s : String) : String :=
  String.intercalate "\n"
    ((s.splitOn "\n").map (fun l => if l.isEmpty then l else ind ++ l))

/-- Embeds `fmt::Debug for Section` (src/src/section/mod.rs lines
186-200): the header, then — when a body is present — a newline and
the body indented by three spaces. -/
def renderSectionDebug (s : Section) : String :=
  s.header ++
    (match s.body with
     | some b => "\n" ++ indentUniform "   " b
     | none => "")

/-- Embeds the renderer's per-placement section pass: iterate the
stored sections, writing `"\n\n"` and the section's `Debug` form for
each section whose order matches. -/
def renderSectionsOfOrder (o : Order) : List Section → String
  | [] => ""
  | s :: rest =>
    (if s.order = o then "\n\n" ++ renderSectionDebug s else "") ++
      renderSectionsOfOrder o rest

/-- Modelled from the spec (§4.4 step 1; the handler module owning the
primary-chain rendering is not under src/): the primary failure/cause
chain as an ordered sequence of cause displays under an `Error:`
label. -/
def renderChain (msgs : List String) : String :=
  "Error:" ++ strJoin (msgs.map (fun m => "\n   " ++ m))

/-- Modelled from the spec (§4.4 step 4; the handler module is not
under src/): the diagnostics block renders the captured span trace
when its status is `Captured` (via `FormattedSpanTrace`,
src/src/writers.rs lines 66-81, indented by two spaces), then the
formatted backtrace when captured, then the `EnvSection` hints from
src/src/writers.rs. -/
def renderDiagnostics (h : Handler) (panicking : Bool) (panicV libV : Verbosity) :
    String :=
  (match h.spanTrace with
   | some t =>
     if t.status = SpanTraceStatus.Captured then "\n\n" ++ indentUniform "  " t.colorized
     else ""
   | none => "") ++
  (match h.backtrace with
   | some bt => "\n\n" ++ bt
   | none => "") ++
  "\n\n" ++ EnvSection.fmt h.backtrace.isSome h.spanTrace panicking panicV libV

/-- Modelled from the spec (§4.4; the handler module is not under
src/): the full report renderer. The placement classes follow the
spec's fixed relative order with the `Order` tags read as the source
names them (src/src/help.rs lines 445-452): the primary chain, then
the `AfterErrMsgs` sections in insertion order, then the diagnostics
block, then the `AfterBackTrace` sections in insertion order
(`SkipEntirely` sections are never stored, hence never rendered). -/
def render (r : Report) (panicking : Bool) (panicV libV : Verbosity) : String :=
  renderChain r.msgs ++
  renderSectionsOfOrder .AfterErrMsgs r.handler.sections ++
  renderDiagnostics r.handler panicking panicV libV ++
  renderSectionsOfOrder .AfterBackTrace r.handler.sections

/-- First index (if any) at which `needle` occurs in `hay`. -/
def firstIndexOfAux (needle : List Char) : List Char → Option Nat
  | [] => if needle.isEmpty then some 0 else none
  | h :: t =>
    if needle.isPrefixOf (h :: t) then some 0
    else (firstIndexOfAux needle t).map (· + 1)

/-- First character index at which `needle` occurs in `hay`. -/
def strIndexOf (hay needle : String) : Option Nat :=
  firstIndexOfAux needle.data hay.data

/-- Does `needle` occur in `hay`? -/
def containsList (needle : List Char) : List Char → Bool
  | [] => needle.isEmpty
  | h :: t => needle.isPrefixOf (h :: t) || containsList needle t

/-- Predicate: `needle` occurs somewhere in `hay`. -/
def strContains (hay needle : String) : Prop :=
  containsList needle.data hay.data = true

instance (hay needle : String) : Decidable (strContains hay needle) :=
  inferInstanceAs (Decidable (_ = true))

/-- The first occurrence of `a` in `hay` strictly precedes the first
occurrence of `b` (both must occur). -/
def occursBefore (hay a b : String) : Bool :=
  match strIndexOf hay a, strIndexOf hay b with
  | some i, some j => decide (i < j)
  | _, _ => false

/-! ### Helper lemmas -/

theorem isPrefixOf_append_self (n t : List Char) : n.isPrefixOf (n ++ t) = true := by
  induction n with
  | nil => simp [List.isPrefixOf]
  | cons h tl ih => simp [List.isPrefixOf, ih]

theorem isPrefixOf_extend (n a b : List Char) (h : n.isPrefixOf a = true) :
    n.isPrefixOf (a ++ b) = true := by
  induction n generalizing a with
  | nil => simp [List.isPrefixOf]
  | cons c tl ih =>
    cases a with
    | nil => simp [List.isPrefixOf] at h
    | cons x xs =>
      simp only [List.isPrefixOf, List.cons_append, Bool.and_eq_true, beq_iff_eq] at h ⊢
      exact ⟨h.1, ih xs h.2⟩

theorem containsList_append_left (n a b : List Char)
    (h : containsList n b = true) : containsList n (a ++ b) = true := by
  induction a with
  | nil => simpa using h
  | cons x xs ih =>
    simp only [List.cons_append, containsList, Bool.or_eq_true]
    exact Or.inr ih

theorem containsList_append_right (n a b : List Char)
    (h : containsList n a = true) : containsList n (a ++ b) = true := by
  induction a with
  | nil =>
    simp [containsList] at h
    subst h
    cases b with
    | nil => simp [containsList, List.isPrefixOf]
    | cons x xs => simp [containsList, List.isPrefixOf]
  | cons x xs ih =>
    simp only [containsList, Bool.or_eq_true] at h
    simp only [List.cons_append, containsList, Bool.or_eq_true]
    cases h with
    | inl hp => exact Or.inl (by simpa using isPrefixOf_extend n (x :: xs) b hp)
    | inr hc => exact Or.inr (ih hc)

theorem containsList_self_append (n t : List Char) :
    containsList n (n ++ t) = true := by
  cases n with
  | nil =>
    cases t with
    | nil => simp [containsList]
    | cons x xs => simp [containsList, List.isPrefixOf]
  | cons c cs =>
    simp only [List.cons_append, containsList, Bool.or_eq_true]
    exact Or.inl (isPrefixOf_append_self (c :: cs) t)

theorem strContains_append_left (a b n : String) (h : strContains b n) :
    strContains (a ++ b) n := by
  unfold strContains at h ⊢
  rw [String.data_append]
  exact containsList_append_left n.data a.data b.data h

theorem strContains_append_right (a b n : String) (h : strContains a n) :
    strContains (a ++ b) n := by
  unfold strContains at h ⊢
  rw [String.data_append]
  exact containsList_append_right n.data a.data b.data h

theorem strContains_self_append (n t : String) : strContains (n ++ t) n := by
  unfold strContains
  rw [String.data_append]
  exact containsList_self_append n.data t.data

theorem renderSectionsOfOrder_append (o : Order) (l1 l2 : List Section) :
    renderSectionsOfOrder o (l1 ++ l2) =
      renderSectionsOfOrder o l1 ++ renderSectionsOfOrder o l2 := by
  induction l1 with
  | nil => simp [renderSectionsOfOrder]
  | cons s t ih =>
    simp only [List.cons_append, renderSectionsOfOrder, List.append_eq, ih,
      String.append_assoc]

theorem renderSectionsOfOrder_single_match (o : Order) (s : Section)
    (h : s.order = o) :
    renderSectionsOfOrder o [s] = "\n\n" ++ renderSectionDebug s := by
  simp [renderSectionsOfOrder, h, String.append_empty]

theorem renderSectionsOfOrder_single_mismatch (o : Order) (s : Section)
    (h : s.order ≠ o) :
    renderSectionsOfOrder o [s] = "" := by
  simp [renderSectionsOfOrder, h]

theorem pushSection_handler (r : Report) (s : Section) :
    (r.pushSection s).handler.backtrace = r.handler.backtrace ∧
    (r.pushSection s).handler.spanTrace = r.handler.spanTrace ∧
    (r.pushSection s).handler.sections = r.handler.sections ++ [s] ∧
    (r.pushSection s).msgs = r.msgs :=
  ⟨rfl, rfl, rfl, rfl⟩

theorem pushSection_msgs (r : Report) (s : Section) :
    (r.pushSection s).msgs = r.msgs := rfl

theorem renderDiagnostics_pushSection (r : Report) (s : Section)
    (panicking : Bool) (pv lv : Verbosity) :
    renderDiagnostics (r.pushSection s).handler panicking pv lv =
      renderDiagnostics r.handler panicking pv lv := rfl

/-- Rendering after appending one section: the new section's text joins
its placement class at the end, everything else unchanged. -/
theorem render_pushSection (r : Report) (s : Section)
    (panicking : Bool) (pv lv : Verbosity) :
    render (r.pushSection s) panicking pv lv =
      renderChain r.msgs ++
      (renderSectionsOfOrder .AfterErrMsgs r.handler.sections ++
        renderSectionsOfOrder .AfterErrMsgs [s]) ++
      renderDiagnostics r.handler panicking pv lv ++
      (renderSectionsOfOrder .AfterBackTrace r.handler.sections ++
        renderSectionsOfOrder .AfterBackTrace [s]) := by
  unfold render
  rw [renderDiagnostics_pushSection]
  rw [(pushSection_handler r s).2.2.1, (pushSection_handler r s).2.2.2]
  rw [renderSectionsOfOrder_append, renderSectionsOfOrder_append]

/-! ### Claims -/

/-- C1: every aggregation operation of the Help trait (`section`,
`with_section`, `note`, `with_note`, `warning`, `with_warning`,
`suggestion`, `with_suggestion`) and `context_from` (for exit
statuses, process outputs and commands) maps `Ok(v)` to `Ok(v)`
unchanged, for every error type `E` convertible into a `Report`; the
lazy variants hold for EVERY closure, so the closure is never forced
on the `Ok` path. -/
theorem c1_ok_identity {T E : Type} (into : E → Report) (v : T)
    (s : Section) (fs : Unit → Section) (n : String) (fn : Unit → String)
    (w : String) (fw : Unit → String) (sg : String) (fsg : Unit → String)
    (st : ExitStatusModel) (out : OutputModel) (cmd : CommandModel) :
    Help.sectionOp into (.ok v) s = .ok v ∧
    Help.with_section into (.ok v) fs = .ok v ∧
    Help.note into (.ok v) n = .ok v ∧
    Help.with_note into (.ok v) fn = .ok v ∧
    Help.warning into (.ok v) w = .ok v ∧
    Help.with_warning into (.ok v) fw = .ok v ∧
    Help.suggestion into (.ok v) sg = .ok v ∧
    Help.with_suggestion into (.ok v) fsg = .ok v ∧
    ContextFrom.resultStatus into (.ok v) st = some (.ok v) ∧
    ContextFrom.resultOutput into (.ok v) out = some (.ok v) ∧
    ContextFrom.resultCommand into (.ok v) cmd = .ok v :=
  ⟨rfl, rfl, rfl, rfl, rfl, rfl, rfl, rfl, rfl, rfl, rfl⟩

/-- C3: a section suppressed via `skip_if(|| true)` is never stored —
appending it through `section` or `with_section` leaves the Context
Store (and hence the rendered report) identical to never having
appended it; `skip_if(|| false)` leaves the section, the store and the
rendered report identical to not calling `skip_if` at all. -/
theorem c3_suppression {T E : Type} (into : E → Report) (e : E) (s : Section)
    (r : Report) (panicking : Bool) (pv lv : Verbosity) :
    Help.sectionOp into (.error e : Except E T)
      (SectionExt.skip_if s (fun _ => true)) = .error (into e) ∧
    Help.with_section into (.error e : Except E T)
      (fun _ => SectionExt.skip_if s (fun _ => true)) = .error (into e) ∧
    Report.sectionOp r (SectionExt.skip_if s (fun _ => true)) = r ∧
    render (Report.sectionOp r (SectionExt.skip_if s (fun _ => true))) panicking pv lv
      = render r panicking pv lv ∧
    SectionExt.skip_if s (fun _ => false) = s ∧
    Help.sectionOp into (.error e : Except E T) (SectionExt.skip_if s (fun _ => false))
      = Help.sectionOp into (.error e) s ∧
    render (Report.sectionOp r (SectionExt.skip_if s (fun _ => false))) panicking pv lv
      = render (Report.sectionOp r s) panicking pv lv :=
  ⟨rfl, rfl, rfl, rfl, rfl, rfl, rfl⟩

/-- C10: suppression is monotone under the section builder: once a
section's placement is `SkipEntirely`, `.body(..)` keeps it
`SkipEntirely` and `.skip_if(p)` keeps it `SkipEntirely` for every
predicate `p`, including one returning `false` (the Rust
`Section::from(self)` conversion in both builder methods is core's
reflexive `From` impl, i.e. the identity). -/
theorem c10_suppression_monotone (hdr : String) (bd : Option String)
    (b2 : String) (p : Unit → Bool) :
    (SectionExt.body ⟨hdr, bd, .SkipEntirely⟩ b2).order = Order.SkipEntirely ∧
    (SectionExt.skip_if ⟨hdr, bd, .SkipEntirely⟩ p).order = Order.SkipEntirely := by
  refine ⟨rfl, ?_⟩
  simp only [SectionExt.skip_if]
  cases p () <;> rfl

/-- C4 counterexample: the claim promises a generic
"exited without a status code or signal" fallback and that
`context_from` never fails; but on the unix configuration compiled by
this source, a status carrying neither a code nor a signal (e.g. the
stopped-child wait status `0x7f`, constructible via
`ExitStatusExt::from_raw`) hits the `unreachable!` panic
(src/src/section/context_from.rs line 70) and no section is produced. -/
theorem c4_counterexample :
    Report.contextFromStatus
      { msgs := [], handler := { backtrace := none, spanTrace := none, sections := [] } }
      { success := false, code := none, signal := none } = none := rfl

/-- C4 amended: on the unix configuration, `context_from` on an exit
status appends exactly one section with header "Exit Status:"; when a
numeric code `c` is available the body is
"command exited successfully|unsuccessfully with status code c"
(whatever the signal, so the code case takes priority); when no code
but a signal `sg` is available the body is
"command terminated successfully|unsuccessfully by signal sg"; with
neither, the operation panics (the generic fallback exists only on
non-unix targets). -/
theorem c4_exit_status_amended (r : Report) (success : Bool) (c sg : Int)
    (sig : Option Int) :
    Report.contextFromStatus r { success := success, code := some c, signal := sig }
      = some (r.pushSection
          { header := "Exit Status:",
            body := some ("command exited " ++
              (if success then "successfully" else "unsuccessfully") ++
              " with status code " ++ toString c),
            order := .AfterErrMsgs }) ∧
    Report.contextFromStatus r { success := success, code := none, signal := some sg }
      = some (r.pushSection
          { header := "Exit Status:",
            body := some ("command terminated " ++
              (if success then "successfully" else "unsuccessfully") ++
              " by signal " ++ toString sg),
            order := .AfterErrMsgs }) ∧
    Report.contextFromStatus r { success := success, code := none, signal := none }
      = none :=
  ⟨rfl, rfl, rfl⟩

/-- C8 counterexample: the claim quantifies over every
`std::process::Output`, but for an output whose status carries neither
a code nor a signal the delegated exit-status extractor panics
(src/src/section/context_from.rs line 70) and no section — not even
the stream sections — is appended. -/
theorem c8_counterexample :
    Report.contextFromOutput
      { msgs := [], handler := { backtrace := none, spanTrace := none, sections := [] } }
      { status := { success := false, code := none, signal := none },
        stdout := [], stderr := [] } = none := rfl

/-- C8 amended: for every output whose exit status carries a code or a
signal, `context_from` first appends the exit-status section (by
delegating to the exit-status extractor), then a "Stdout:" section and
then a "Stderr:" section whose bodies are the captured byte streams
decoded by the total (never-erroring) lossy UTF-8 decoder; both stream
sections are appended even when the stream is empty (the byte lists
are universally quantified, the empty list included). -/
theorem c8_output_amended (r : Report) (success : Bool) (c sg : Int)
    (sig : Option Int) (so se : List Nat) :
    (∀ r1, Report.contextFromStatus r { success := success, code := some c, signal := sig }
        = some r1 →
      Report.contextFromOutput r
        { status := { success := success, code := some c, signal := sig },
          stdout := so, stderr := se }
        = some ((r1.pushSection
            { header := "Stdout:", body := some (fromUtf8Lossy so),
              order := .AfterErrMsgs }).pushSection
            { header := "Stderr:", body := some (fromUtf8Lossy se),
              order := .AfterErrMsgs })) ∧
    (∀ r1, Report.contextFromStatus r { success := success, code := none, signal := some sg }
        = some r1 →
      Report.contextFromOutput r
        { status := { success := success, code := none, signal := some sg },
          stdout := so, stderr := se }
        = some ((r1.pushSection
            { header := "Stdout:", body := some (fromUtf8Lossy so),
              order := .AfterErrMsgs }).pushSection
            { header := "Stderr:", body := some (fromUtf8Lossy se),
              order := .AfterErrMsgs })) := by
  constructor
  · intro r1 h1
    unfold Report.contextFromOutput
    rw [h1]
    rfl
  · intro r1 h1
    unfold Report.contextFromOutput
    rw [h1]
    rfl

/-- C8 witness: concrete evaluation at a failing status with code 2, an
empty stdout and a stderr holding an invalid UTF-8 byte followed by
`A`: the three sections appear in order, the empty stream still gets
its section, and the invalid byte is replaced with U+FFFD. -/
theorem c8_output_amended_witness :
    Report.contextFromOutput
      { msgs := [], handler := { backtrace := none, spanTrace := none, sections := [] } }
      { status := { success := false, code := some 2, signal := none },
        stdout := [], stderr := [0xFF, 0x41] }
      = some ({ msgs := [],
                handler := { backtrace := none, spanTrace := none, sections :=
                  [{ header := "Exit Status:",
                     body := some "command exited unsuccessfully with status code 2",
                     order := .AfterErrMsgs },
                   { header := "Stdout:", body := some "", order := .AfterErrMsgs },
                   { header := "Stderr:", body := some (String.mk [replChar, 'A']),
                     order := .AfterErrMsgs }] } } : Report) := by
  have h := (c8_output_amended
    { msgs := [], handler := { backtrace := none, spanTrace := none, sections := [] } }
    false 2 0 none [] [0xFF, 0x41]).1 _ rfl
  simpa using h

theorem renderSectionDebug_help (hi : HelpInfo) :
    renderSectionDebug (mkHelpSection hi) = hi.display := by
  simp [renderSectionDebug, mkHelpSection, Section.ofHelpInfo, Section.ofHeader,
    Section.withOrder]

theorem renderSectionsOfOrder_em_help (hi : HelpInfo) :
    renderSectionsOfOrder .AfterErrMsgs [mkHelpSection hi] = "" := rfl

theorem renderSectionsOfOrder_ab_help (hi : HelpInfo) :
    renderSectionsOfOrder .AfterBackTrace [mkHelpSection hi] = "\n\n" ++ hi.display := by
  rw [renderSectionsOfOrder_single_match .AfterBackTrace (mkHelpSection hi) rfl,
    renderSectionDebug_help]

theorem renderSectionsOfOrder_ab_custom (hdr : String) (bd : Option String) :
    renderSectionsOfOrder .AfterBackTrace [⟨hdr, bd, .AfterErrMsgs⟩] = "" := rfl

theorem renderSectionsOfOrder_em_custom (hdr : String) (bd : Option String) :
    renderSectionsOfOrder .AfterErrMsgs [⟨hdr, bd, .AfterErrMsgs⟩]
      = "\n\n" ++ renderSectionDebug ⟨hdr, bd, .AfterErrMsgs⟩ :=
  renderSectionsOfOrder_single_match _ _ rfl

/-- C2 counterexample: a populated Context Store with one help entry
(`note("n1")`): in the rendered report the diagnostics block (here the
"Backtrace omitted." hint) appears strictly BEFORE the help entry's
"Note" label, so the claimed class order (help entries before the
diagnostics block) is false: help entries carry `Order::AfterBackTrace`
(src/src/help.rs line 234) and render after the diagnostics block. -/
theorem c2_counterexample :
    occursBefore
      (render { msgs := ["boom"],
                handler := { backtrace := none, spanTrace := none,
                             sections := [mkHelpSection (.Note "n1")] } }
        false .Minimal .Minimal)
      "Note" "Backtrace omitted." = false ∧
    occursBefore
      (render { msgs := ["boom"],
                handler := { backtrace := none, spanTrace := none,
                             sections := [mkHelpSection (.Note "n1")] } }
        false .Minimal .Minimal)
      "Backtrace omitted." "Note" = true := by
  constructor <;> rfl

/-- C2 amended: the placement classes render in the fixed relative
order: primary failure chain, then every `AfterErrMsgs` custom section
(in insertion order), then the diagnostics block, then every
`AfterBackTrace` section — which is where every help entry
(Note/Warning/Suggestion) lives — in insertion order; in particular a
help entry renders AFTER the diagnostics block, at the very end of the
report. -/
theorem c2_order_amended (r : Report) (panicking : Bool) (pv lv : Verbosity)
    (hi : HelpInfo) (hdr : String) (bd : Option String) :
    (mkHelpSection hi).order = Order.AfterBackTrace ∧
    render (r.pushSection (mkHelpSection hi)) panicking pv lv
      = render r panicking pv lv ++ ("\n\n" ++ hi.display) ∧
    render (r.pushSection ⟨hdr, bd, .AfterErrMsgs⟩) panicking pv lv
      = renderChain r.msgs
        ++ (renderSectionsOfOrder .AfterErrMsgs r.handler.sections
            ++ ("\n\n" ++ renderSectionDebug ⟨hdr, bd, .AfterErrMsgs⟩))
        ++ renderDiagnostics r.handler panicking pv lv
        ++ renderSectionsOfOrder .AfterBackTrace r.handler.sections := by
  refine ⟨rfl, ?_, ?_⟩
  · rw [render_pushSection, renderSectionsOfOrder_em_help,
      renderSectionsOfOrder_ab_help, render]
    simp [String.append_assoc, String.append_empty]
  · rw [render_pushSection, renderSectionsOfOrder_em_custom,
      renderSectionsOfOrder_ab_custom]
    simp [String.append_assoc, String.append_empty]

/-- C7: entries of the same placement/kind class render in insertion
order: `note("a")` then `note("b")` stores the two help sections in
call order and renders "a"'s entry before "b"'s; likewise two custom
sections of the `AfterErrMsgs` class render in exact insertion order
within their class. -/
theorem c7_insertion_order {T E : Type} (into : E → Report) (e : E) (a b : String)
    (r : Report) (hd1 hd2 : String) (bd1 bd2 : Option String)
    (panicking : Bool) (pv lv : Verbosity) :
    Help.note (T := T) (E := Report) id (Help.note into (.error e) a) b
      = .error (((into e).pushSection (mkHelpSection (.Note a))).pushSection
          (mkHelpSection (.Note b))) ∧
    render (((into e).pushSection (mkHelpSection (.Note a))).pushSection
        (mkHelpSection (.Note b))) panicking pv lv
      = render (into e) panicking pv lv
        ++ ("\n\n" ++ HelpInfo.display (.Note a))
        ++ ("\n\n" ++ HelpInfo.display (.Note b)) ∧
    render ((r.pushSection ⟨hd1, bd1, .AfterErrMsgs⟩).pushSection
        ⟨hd2, bd2, .AfterErrMsgs⟩) panicking pv lv
      = renderChain r.msgs
        ++ (renderSectionsOfOrder .AfterErrMsgs r.handler.sections
            ++ ("\n\n" ++ renderSectionDebug ⟨hd1, bd1, .AfterErrMsgs⟩)
            ++ ("\n\n" ++ renderSectionDebug ⟨hd2, bd2, .AfterErrMsgs⟩))
        ++ renderDiagnostics r.handler panicking pv lv
        ++ renderSectionsOfOrder .AfterBackTrace r.handler.sections := by
  refine ⟨rfl, ?_, ?_⟩
  · rw [render_pushSection, renderSectionsOfOrder_em_help,
      renderSectionsOfOrder_ab_help]
    rw [show ((into e).pushSection (mkHelpSection (.Note a))).handler.sections
        = (into e).handler.sections ++ [mkHelpSection (.Note a)] from rfl]
    rw [renderSectionsOfOrder_append, renderSectionsOfOrder_append,
      renderSectionsOfOrder_em_help, renderSectionsOfOrder_ab_help,
      renderDiagnostics_pushSection, render]
    simp [String.append_assoc, String.append_empty, pushSection_msgs]
  · rw [render_pushSection, renderSectionsOfOrder_em_custom,
      renderSectionsOfOrder_ab_custom]
    rw [show (r.pushSection ⟨hd1, bd1, .AfterErrMsgs⟩).handler.sections
        = r.handler.sections ++ [⟨hd1, bd1, .AfterErrMsgs⟩] from rfl]
    rw [renderSectionsOfOrder_append, renderSectionsOfOrder_append,
      renderSectionsOfOrder_em_custom, renderSectionsOfOrder_ab_custom,
      renderDiagnostics_pushSection]
    simp [String.append_assoc, String.append_empty, pushSection_msgs]

/-- C5: rendering is deterministic. The embedding passes every input
the Rust renderer consults — the Context Store content, the panicking
state, the two verbosity policies, and the captured artifacts stored
in the handler — as explicit arguments of the pure function `render`,
so two invocations on the same inputs produce byte-identical output. -/
theorem c5_deterministic (r : Report) (panicking : Bool) (pv lv : Verbosity) :
    render r panicking pv lv = render r panicking pv lv := rfl

theorem write_str_started (w : HeaderWriter) (c : String) (h : w.started = true) :
    w.write_str c = { w with inner := w.inner ++ c } := by
  simp [HeaderWriter.write_str, h]

theorem writeChunks_started (w : HeaderWriter) (cs : List String)
    (h : w.started = true) :
    w.writeChunks cs = { w with inner := w.inner ++ strJoin cs } := by
  induction cs generalizing w with
  | nil => simp [HeaderWriter.writeChunks, strJoin, String.append_empty]
  | cons c rest ih =>
    show (w.write_str c).writeChunks rest = _
    rw [write_str_started w c h, ih _ (by simp [h])]
    simp [strJoin, String.append_assoc]

theorem writeChunks_all_empty (w : HeaderWriter) (cs : List String)
    (h : ∀ x ∈ cs, x = "") : w.writeChunks cs = w := by
  induction cs generalizing w with
  | nil => rfl
  | cons c rest ih =>
    have hc : c = "" := h c (by simp)
    subst hc
    have hw : w.write_str "" = w := by
      simp [HeaderWriter.write_str, show String.isEmpty "" = true from rfl,
        String.append_empty]
    show (w.write_str "").writeChunks rest = w
    rw [hw]
    exact ih w (fun x hx => h x (by simp [hx]))

theorem isEmpty_false_of_ne (c : String) (h : c ≠ "") : c.isEmpty = false := by
  cases hc : c.isEmpty
  · rfl
  · exact absurd ((String.isEmpty_iff c).mp hc) h

/-- C6: within one gated scope (begun by `ready()`), the header is
written exactly once, immediately before the first non-empty chunk —
empty chunks before it contribute nothing, the header precedes that
chunk, all later chunks are written verbatim — and the header is never
written when every chunk of the scope is empty; `ready()` resets the
started flag (leaving the sink and the header untouched) so a fresh
gated scope can begin on the same underlying sink. -/
theorem c6_header_gating (w : HeaderWriter) (cs es rest : List String) (c : String) :
    (w.ready.started = false ∧ w.ready.inner = w.inner ∧ w.ready.header = w.header) ∧
    ((∀ x ∈ cs, x = "") → w.ready.writeChunks cs = w.ready) ∧
    ((∀ x ∈ es, x = "") → c ≠ "" →
      w.ready.writeChunks (es ++ c :: rest)
        = { inner := w.inner ++ w.header ++ (c ++ strJoin rest),
            header := w.header, started := true }) := by
  refine ⟨⟨rfl, rfl, rfl⟩, ?_, ?_⟩
  · intro hall
    exact writeChunks_all_empty w.ready cs hall
  intro hes hc
  have h1 : w.ready.writeChunks (es ++ c :: rest)
      = (w.ready.writeChunks es).writeChunks (c :: rest) := by
    simp [HeaderWriter.writeChunks, List.foldl_append]
  rw [h1, writeChunks_all_empty w.ready es hes]
  show (w.ready.write_str c).writeChunks rest = _
  have h2 : w.ready.write_str c
      = { inner := w.inner ++ (w.header ++ c), header := w.header, started := true } := by
    simp [HeaderWriter.write_str, HeaderWriter.ready, isEmpty_false_of_ne c hc,
      String.append_assoc]
  rw [h2, writeChunks_started _ rest rfl]
  simp [String.append_assoc]

/-- C6 witness: on the sink "out" with header "HDR", a gated scope fed
the chunks `["", "a", "b"]` emits the header exactly once, before "a";
a gated scope fed only empty chunks emits nothing. -/
theorem c6_header_gating_witness :
    HeaderWriter.writeChunks (HeaderWriter.ready ⟨"out", "HDR", true⟩) ["", "a", "b"]
      = { inner := "out" ++ "HDR" ++ ("a" ++ strJoin ["b"]),
          header := "HDR", started := true } ∧
    HeaderWriter.writeChunks (HeaderWriter.ready ⟨"out", "HDR", true⟩) ["", ""]
      = HeaderWriter.ready ⟨"out", "HDR", true⟩ :=
  ⟨(c6_header_gating ⟨"out", "HDR", true⟩ [] [""] ["b"] "a").2.2
     (by intro x hx; simpa using hx) (by decide),
   (c6_header_gating ⟨"out", "HDR", true⟩ ["", ""] [] [] "x").2.1
     (by intro x hx; simpa using hx)⟩

theorem envSectionCore_contains_hint (btCaptured : Bool) (st : Option SpanTraceStatus)
    (v : Verbosity) (h : v ≤ Verbosity.Medium) :
    strContains (envSectionCore btCaptured st v) sourceSnippetsHint := by
  rcases st with _ | s
  · cases v <;> cases btCaptured <;>
      first
        | exact absurd h (by decide)
        | decide
  · cases s <;> cases v <;> cases btCaptured <;>
      first
        | exact absurd h (by decide)
        | decide

theorem envSectionCore_full_no_hint (btCaptured : Bool) (st : Option SpanTraceStatus) :
    ¬ strContains (envSectionCore btCaptured st Verbosity.Full) sourceSnippetsHint := by
  rcases st with _ | s
  · cases btCaptured <;> decide
  · cases s <;> cases btCaptured <;> decide

theorem verbosity_lt_full_iff (v : Verbosity) :
    v < Verbosity.Full ↔ v ≤ Verbosity.Medium := by
  cases v <;> decide

/-- C9: when the selected verbosity (panic or library policy, per the
panicking state) is below `Full`, the rendered report's diagnostics
block contains the source-snippet hint
"Run with RUST_BACKTRACE=full to include source snippets."; at `Full`
the environment-hint section — the renderer component that emits the
hint — never contains it, for every backtrace/span-trace
configuration. -/
theorem c9_source_snippet_hint (r : Report) (btCaptured : Bool)
    (span : Option SpanTraceModel) (panicking : Bool) (pv lv : Verbosity) :
    ((if panicking then pv else lv) < Verbosity.Full →
      strContains (render r panicking pv lv) sourceSnippetsHint) ∧
    ((if panicking then pv else lv) = Verbosity.Full →
      ¬ strContains (EnvSection.fmt btCaptured span panicking pv lv)
        sourceSnippetsHint) := by
  constructor
  · intro hv
    have hle : (if panicking then pv else lv) ≤ Verbosity.Medium :=
      (verbosity_lt_full_iff _).mp hv
    have h1 : strContains
        (EnvSection.fmt r.handler.backtrace.isSome r.handler.spanTrace panicking pv lv)
        sourceSnippetsHint := by
      unfold EnvSection.fmt
      exact envSectionCore_contains_hint _ _ _ hle
    have h2 : strContains (renderDiagnostics r.handler panicking pv lv)
        sourceSnippetsHint := by
      unfold renderDiagnostics
      exact strContains_append_left _ _ _ h1
    unfold render
    exact strContains_append_right _ _ _ (strContains_append_left _ _ _ h2)
  · intro hv
    unfold EnvSection.fmt
    rw [hv]
    exact envSectionCore_full_no_hint _ _

/-- C9 witness: at `Minimal` verbosity a concrete report's rendering
contains the source-snippet hint; at `Full` the environment-hint
section does not. -/
theorem c9_source_snippet_hint_witness :
    strContains
      (render { msgs := ["m"],
                handler := { backtrace := none, spanTrace := none, sections := [] } }
        false .Minimal .Minimal) sourceSnippetsHint ∧
    ¬ strContains (EnvSection.fmt true none false .Full .Full) sourceSnippetsHint :=
  ⟨(c9_source_snippet_hint
      { msgs := ["m"], handler := { backtrace := none, spanTrace := none, sections := [] } }
      true none false .Minimal .Minimal).1 (by decide),
   (c9_source_snippet_hint
      { msgs := ["m"], handler := { backtrace := none, spanTrace := none, sections := [] } }
      true none false .Full .Full).2 rfl⟩

end ColorEyre
